import Mathlib

/-! A shallow embedding of the clip-collection editing engine of
`src/WaveTrack.cpp` (the wave-track editing core).  Times (C++ `double`) are
modelled as exact rationals, sample positions (`sampleCount`) as integers,
sample lengths as naturals, and sample data abstractly.  The clip-level
operations live in `WaveClip.cpp`, which is not among the sources; those are
modelled from the spec and say so in their doc comments.  Everything else is
translated directly from `WaveTrack.cpp`. -/

set_option maxRecDepth 6000

namespace Audacity

/-- Sample formats of the storage layer (`sampleFormat`); only `floatSample`
takes part in track-cache reads. -/
inductive SampleFormat where
  | int16Sample
  | int24Sample
  | floatSample
deriving DecidableEq, Repr

/-- The uniform time-to-sample rounding rule `floor(t * rate + 0.5)` used by
`WaveTrack::TimeToLongSamples` and, per the spec, by the clip-boundary
quantization. -/
def timeToSamples (rate : ℕ) (t : ℚ) : ℤ := ⌊t * (rate : ℚ) + 1 / 2⌋

/-- Modelled from the spec: the Clip data (`WaveClip`, whose source file is
not part of the sources here): a track-relative start `offset`, a length in
samples, the sample rate, the placeholder flag, and the nested cut-line
children, each a pair of its offset relative to this clip and its length in
samples. -/
structure WaveClip where
  offset : ℚ
  numSamples : ℕ
  rate : ℕ
  isPlaceholder : Bool := false
  cutLines : List (ℚ × ℕ) := []
deriving DecidableEq, Repr

/-- Derived attribute (spec §3): `startTime = offset`. -/
def WaveClip.startTime (c : WaveClip) : ℚ := c.offset

/-- Derived attribute (spec §3): `endTime = offset + numSamples/rate`. -/
def WaveClip.endTime (c : WaveClip) : ℚ :=
  c.offset + (c.numSamples : ℚ) / (c.rate : ℚ)

/-- Derived attribute (spec §3): `startSample = round(offset*rate)`. -/
def WaveClip.startSample (c : WaveClip) : ℤ := timeToSamples c.rate c.offset

/-- Derived attribute (spec §3): `endSample = startSample + numSamples`. -/
def WaveClip.endSample (c : WaveClip) : ℤ := c.startSample + (c.numSamples : ℤ)

/-- Modelled from the spec: `WaveClip::BeforeClip(t)` — the time `t`,
quantized by the `round(t*rate)` rule, falls at or before the clip's first
sample (the whole clip is at or after `t`). -/
def WaveClip.beforeClip (c : WaveClip) (t : ℚ) : Bool :=
  decide (timeToSamples c.rate t ≤ c.startSample)

/-- Modelled from the spec: `WaveClip::AfterClip(t)` — the quantized time
falls at or after the clip's one-past-the-end sample. -/
def WaveClip.afterClip (c : WaveClip) (t : ℚ) : Bool :=
  decide (c.endSample ≤ timeToSamples c.rate t)

/-- Modelled from the spec: `WaveClip::WithinClip(t)` — the quantized time
falls strictly inside the clip's sample span. -/
def WaveClip.withinClip (c : WaveClip) (t : ℚ) : Bool :=
  decide (c.startSample < timeToSamples c.rate t) &&
  decide (timeToSamples c.rate t < c.endSample)

/-- Modelled from the spec: `WaveClip::Offset(d)` — shifts the clip in track
time. -/
def WaveClip.offsetBy (c : WaveClip) (d : ℚ) : WaveClip :=
  { c with offset := c.offset + d }

/-- Modelled from the spec: `WaveClip::Clear(t0,t1)` — the samples of
`[t0,t1)` falling inside the clip are deleted and the remaining points before
`t0` and at/after `t1` are kept contiguous; when `t0` precedes the clip's
start the remainder moves to start at `t0` (the content closes up to the left
edge of the cleared region, matching the non-split track-level semantics in
spec §4.1).  Cut-line children positioned inside `[t0,t1]` are dropped and
later ones are shifted left by the cleared duration. -/
def WaveClip.clear (c : WaveClip) (t0 t1 : ℚ) : WaveClip :=
  let s0 := max c.startSample (timeToSamples c.rate t0)
  let s1 := min c.endSample (timeToSamples c.rate t1)
  { c with
    numSamples := c.numSamples - (s1 - s0).toNat,
    offset := if t0 < c.offset then t0 else c.offset,
    cutLines :=
      (c.cutLines.filter fun cl =>
        !(decide (t0 ≤ c.offset + cl.1) && decide (c.offset + cl.1 ≤ t1))).map
        fun cl => if t1 ≤ c.offset + cl.1 then (cl.1 - (t1 - t0), cl.2) else cl }

/-- Modelled from the spec: `WaveClip::ClearAndAddCutLine(t0,t1)` — the same
removal as `WaveClip.clear`, with the removed span stashed as a new cut-line
child positioned at `t0` relative to the clip. -/
def WaveClip.clearAndAddCutLine (c : WaveClip) (t0 t1 : ℚ) : WaveClip :=
  let s0 := max c.startSample (timeToSamples c.rate t0)
  let s1 := min c.endSample (timeToSamples c.rate t1)
  let base := c.clear t0 t1
  { base with cutLines := base.cutLines ++ [(t0 - base.offset, (s1 - s0).toNat)] }

/-- Modelled from the spec: `WaveClip::Resample(newRate)` — the samples are
converted to the new rate; the clip keeps its position and duration, so the
new length is the duration re-quantized at the new rate. -/
def WaveClip.resample (c : WaveClip) (newRate : ℕ) : WaveClip :=
  { c with
    rate := newRate,
    numSamples := (timeToSamples newRate ((c.numSamples : ℚ) / (c.rate : ℚ))).toNat }

/-- Modelled from the spec: `WaveClip::Paste(t0, src)` — splices the source
clip's samples into this clip at `t0` (in-place insertion, no new clip); the
clip grows by the source's length resampled to this clip's rate.  The
insertion point selects where the samples go inside the clip and does not
change the clip's offset. -/
def WaveClip.pasteInto (c : WaveClip) (_t0 : ℚ) (src : WaveClip) : WaveClip :=
  { c with numSamples := c.numSamples + (src.resample c.rate).numSamples }

/-- Modelled from the spec: the `WaveClip` copy constructor over an interval
(used by `WaveTrack::Copy`): the copy holds the clip's samples of `[t0,t1)`
and starts at `t0`; callers pass `t0,t1` already clamped into the clip. -/
def WaveClip.copyPart (c : WaveClip) (t0 t1 : ℚ) : WaveClip :=
  let s0 := max c.startSample (timeToSamples c.rate t0)
  let s1 := min c.endSample (timeToSamples c.rate t1)
  { c with offset := t0, numSamples := (s1 - s0).toNat }

/-- A wave track: its sample rate and the clip collection
(`WaveTrack::mClips`).  Gain, pan and sample format take no part in the
clip-collection algorithms and are omitted. -/
structure WaveTrack where
  rate : ℕ
  clips : List WaveClip
deriving DecidableEq, Repr

/-- Errors surfaced by editing operations: `ordering` models
`THROW_INCONSISTENCY_EXCEPTION` on a reversed interval, `capacity` the
"not enough room" `SimpleMessageBoxException`, and `outOfFuel` is the
embedding's recursion-depth bound for `WaveTrack::Paste` (never reached in
the theorems below). -/
inductive EditError where
  | ordering
  | capacity
  | outOfFuel
deriving DecidableEq, Repr

deriving instance DecidableEq for Except

/-- WaveTrack::TimeToLongSamples — `floor(t0 * mRate + 0.5)`. -/
def WaveTrack.timeToLongSamples (tr : WaveTrack) (t : ℚ) : ℤ :=
  timeToSamples tr.rate t

/-- WaveTrack::LongSamplesToTime — `pos / mRate`. -/
def WaveTrack.longSamplesToTime (tr : WaveTrack) (pos : ℤ) : ℚ :=
  (pos : ℚ) / (tr.rate : ℚ)

/-- WaveTrack::GetNumClips. -/
def WaveTrack.getNumClips (tr : WaveTrack) : ℕ := tr.clips.length

/-- WaveTrack::GetStartTime — 0 for an empty track, else the least clip start
time, computed by the source's found/best fold. -/
def WaveTrack.getStartTime (tr : WaveTrack) : ℚ :=
  match tr.clips with
  | [] => 0
  | c :: rest =>
    rest.foldl (fun best c' => if c'.startTime < best then c'.startTime else best)
      c.startTime

/-- WaveTrack::GetEndTime — 0 for an empty track, else the greatest clip end
time, computed by the source's found/best fold. -/
def WaveTrack.getEndTime (tr : WaveTrack) : ℚ :=
  match tr.clips with
  | [] => 0
  | c :: rest =>
    rest.foldl (fun best c' => if best < c'.endTime then c'.endTime else best)
      c.endTime

/-- WaveTrack::IsEmpty — true immediately when `t0 > t1`, else true iff no
clip passes the quantized overlap test `!BeforeClip(t1) && !AfterClip(t0)`. -/
def WaveTrack.isEmpty (tr : WaveTrack) (t0 t1 : ℚ) : Bool :=
  if t0 > t1 then true
  else !(tr.clips.any fun c => !(c.beforeClip t1) && !(c.afterClip t0))

/-- The per-clip decision of HandleClear's first phase (the loop over
`mClips`): whether the clip is marked for deletion, and the replacement
clips built from a duplicate of it. -/
def handleClearClassify (t0 t1 : ℚ) (addCutLines split : Bool)
    (c : WaveClip) : Bool × List WaveClip :=
  if c.beforeClip t0 && c.afterClip t1 then
    (true, [])
  else if !(c.beforeClip t1) && !(c.afterClip t0) then
    if addCutLines then
      (true, [c.clearAndAddCutLine t0 t1])
    else if split then
      if c.beforeClip t0 then
        (true, [(c.clear c.startTime t1).offsetBy (t1 - c.startTime)])
      else if c.afterClip t1 then
        (true, [c.clear t0 c.endTime])
      else
        (true, [c.clear t0 c.endTime,
                (c.clear c.startTime t1).offsetBy (t1 - c.startTime)])
    else
      (true, [c.clear t0 t1])
  else (false, [])

/-- WaveTrack::HandleClear(t0, t1, addCutLines, split).  The
`editClipCanMove` configuration (read from `gPrefs` in the source) is passed
explicitly, per spec §9.  Classification, the replacement-building first
phase and the commit phase follow the source statement by statement; on the
reversed-interval throw the unchanged track is carried in the error value. -/
def WaveTrack.handleClear (tr : WaveTrack) (t0 t1 : ℚ)
    (addCutLines split editClipCanMove : Bool) :
    Except (EditError × WaveTrack) WaveTrack :=
  if t1 < t0 then .error (.ordering, tr)
  else
    let addCutLines := addCutLines &&
      !(tr.clips.any fun c =>
        !(c.beforeClip t1) && !(c.afterClip t0) &&
        (c.beforeClip t0 || c.afterClip t1))
    let classify := handleClearClassify t0 t1 addCutLines split
    let kept := tr.clips.filterMap fun c =>
      if (classify c).1 then none
      else if c.beforeClip t1 && !split && editClipCanMove then
        some (c.offsetBy (-(t1 - t0)))
      else some c
    let added := tr.clips.flatMap fun c => (classify c).2
    .ok { tr with clips := kept ++ added }

/-- WaveTrack::Clear — `HandleClear(addCutLines=false, split=false)`. -/
def WaveTrack.clear (tr : WaveTrack) (t0 t1 : ℚ) (editClipCanMove : Bool) :
    Except (EditError × WaveTrack) WaveTrack :=
  tr.handleClear t0 t1 false false editClipCanMove

/-- WaveTrack::ClearAndAddCutLine — `HandleClear(addCutLines=true,
split=false)`. -/
def WaveTrack.clearAndAddCutLineTrack (tr : WaveTrack) (t0 t1 : ℚ)
    (editClipCanMove : Bool) : Except (EditError × WaveTrack) WaveTrack :=
  tr.handleClear t0 t1 true false editClipCanMove

/-- WaveTrack::SplitDelete — `HandleClear(addCutLines=false, split=true)`. -/
def WaveTrack.splitDelete (tr : WaveTrack) (t0 t1 : ℚ)
    (editClipCanMove : Bool) : Except (EditError × WaveTrack) WaveTrack :=
  tr.handleClear t0 t1 false true editClipCanMove

/-- WaveTrack::Copy(t0, t1, forClipboard) — a new track holding duplicates of
the clips intersecting `[t0,t1]`, shifted left by `t0`, plus a trailing
placeholder clip when copying for the clipboard and the selection ends in
whitespace. -/
def WaveTrack.copy (tr : WaveTrack) (t0 t1 : ℚ) (forClipboard : Bool) :
    Except EditError WaveTrack :=
  if t1 < t0 then .error .ordering
  else
    let base : List WaveClip := tr.clips.filterMap fun c =>
      if t0 ≤ c.startTime ∧ c.endTime ≤ t1 then
        some (c.offsetBy (-t0))
      else if c.startTime < t1 ∧ t0 < c.endTime then
        let ct0 := max t0 c.startTime
        let ct1 := min t1 c.endTime
        let nc := (c.copyPart ct0 ct1).offsetBy (-t0)
        some (if nc.offset < 0 then { nc with offset := 0 } else nc)
      else none
    let newTrack : WaveTrack := { rate := tr.rate, clips := base }
    if forClipboard ∧ newTrack.getEndTime + 1 / (tr.rate : ℚ) < t1 - t0 then
      let placeholder : WaveClip :=
        { offset := newTrack.getEndTime,
          numSamples :=
            (timeToSamples tr.rate ((t1 - t0) - newTrack.getEndTime)).toNat,
          rate := tr.rate,
          isPlaceholder := true }
      .ok { newTrack with clips := newTrack.clips ++ [placeholder] }
    else .ok newTrack

/-- WaveTrack::Cut — rejects a reversed interval, then Copy followed by
Clear.  Returns the copied track together with the remaining track. -/
def WaveTrack.cut (tr : WaveTrack) (t0 t1 : ℚ) (editClipCanMove : Bool) :
    Except (EditError × WaveTrack) (WaveTrack × WaveTrack) :=
  if t1 < t0 then .error (.ordering, tr)
  else
    match tr.copy t0 t1 true with
    | .error e => .error (e, tr)
    | .ok tmp =>
      match tr.clear t0 t1 editClipCanMove with
      | .error p => .error p
      | .ok tr' => .ok (tmp, tr')

/-- WaveTrack::Silence(t0, t1) — rejects a reversed interval, then overwrites
the overlapped sample ranges with zeros through `Sequence::SetSilence`.
Sample values are outside this embedding and SetSilence changes no clip
structure (no offset or length changes), so the clip collection is returned
unchanged on success. -/
def WaveTrack.silence (tr : WaveTrack) (t0 t1 : ℚ) :
    Except (EditError × WaveTrack) WaveTrack :=
  if t1 < t0 then .error (.ordering, tr) else .ok tr

/-- FLT_MAX, exactly: `(2 - 2^-23) * 2^127`. -/
def fltMax : ℚ := 2 ^ 128 - 2 ^ 104

/-- The fold step of WaveTrack::GetMinMax's clip loop: clips intersecting
`[t0,t1]` mark `clipFound` and widen the running extrema with the clip's
own extrema. -/
def getMinMaxStep (clipMinMax : WaveClip → ℚ × ℚ) (t0 t1 : ℚ)
    (acc : Bool × ℚ × ℚ) (c : WaveClip) : Bool × ℚ × ℚ :=
  if c.startTime ≤ t1 ∧ t0 ≤ c.endTime then
    let cr := clipMinMax c
    (true,
     if cr.1 < acc.2.1 then cr.1 else acc.2.1,
     if acc.2.2 < cr.2 then cr.2 else acc.2.2)
  else acc

/-- WaveTrack::GetMinMax(t0, t1, mayThrow).  Per-clip extrema come from
`WaveClip::GetMinMax` (whose source file is not among the sources),
abstracted as the oracle `clipMinMax`; the track-level sentinel and default
logic is translated from the source. -/
def WaveTrack.getMinMax (tr : WaveTrack) (clipMinMax : WaveClip → ℚ × ℚ)
    (t0 t1 : ℚ) (mayThrow : Bool) : Except EditError (ℚ × ℚ) :=
  if t0 > t1 then
    if mayThrow then .error .ordering else .ok (fltMax, -fltMax)
  else if t0 = t1 then .ok (fltMax, -fltMax)
  else
    let r := tr.clips.foldl (getMinMaxStep clipMinMax t0 t1)
      (false, fltMax, -fltMax)
    if r.1 then .ok r.2 else .ok (0, 0)

/-- Replaces the first clip satisfying `p` (the C++ code mutates the found
clip in place through its pointer). -/
def replaceFirstClip (l : List WaveClip) (p : WaveClip → Bool)
    (f : WaveClip → WaveClip) : List WaveClip :=
  match l with
  | [] => []
  | c :: rest => if p c then f c :: rest else c :: replaceFirstClip rest p f

/-- WaveTrack::Paste(t0, src), with the `editClipCanMove` configuration
passed explicitly.  `fuel` bounds the source's self-recursion (the make-room
Cut + Paste in the clips-can-move multi-clip path); every theorem below uses
paths that do not recurse.  The source's two modes are translated directly:
the in-place single-clip splice, and multi-clip insertion of one new clip per
non-placeholder source clip. -/
def WaveTrack.paste :
    ℕ → WaveTrack → ℚ → WaveTrack → Bool →
    Except (EditError × WaveTrack) WaveTrack
  | 0, tr, _, _, _ => .error (.outOfFuel, tr)
  | fuel + 1, tr, t0, src, editClipCanMove =>
    if src.getNumClips = 0 then .ok tr
    else
      let singleClipMode := src.getNumClips = 1 ∧ src.getStartTime = 0
      let insertDuration := src.getEndTime
      if insertDuration ≠ 0 ∧ insertDuration < 1 / (tr.rate : ℚ) then .ok tr
      else
        let makeRoom : Except (EditError × WaveTrack) WaveTrack :=
          if editClipCanMove then
            if ¬singleClipMode then
              if tr.isEmpty t0 tr.getEndTime = false then
                match tr.cut t0 (tr.getEndTime + 1 / (tr.rate : ℚ))
                    editClipCanMove with
                | .error p => .error p
                | .ok (tmp, tr1) =>
                  WaveTrack.paste fuel tr1 (t0 + insertDuration) tmp
                    editClipCanMove
              else .ok tr
            else
              .ok { tr with clips := tr.clips.map (fun c =>
                if t0 - 1 / (tr.rate : ℚ) < c.startTime then
                  c.offsetBy insertDuration
                else c) }
          else .ok tr
        match makeRoom with
        | .error p => .error p
        | .ok tr2 =>
          let inside : WaveClip → Bool := fun c =>
            if editClipCanMove then c.withinClip t0
            else c.withinClip t0 ||
              decide (tr2.timeToLongSamples t0 = c.startSample)
          let multiInsert : WaveTrack →
              Except (EditError × WaveTrack) WaveTrack := fun tk =>
            if !editClipCanMove &&
                !(tk.isEmpty t0 (t0 + insertDuration - 1 / (tk.rate : ℚ))) then
              .error (.capacity, tk)
            else
              .ok { tk with clips := tk.clips ++ src.clips.filterMap (fun c =>
                if c.isPlaceholder then none
                else some ((c.resample tk.rate).offsetBy t0)) }
          if singleClipMode then
            match tr2.clips.find? inside with
            | some insideClip =>
              if !editClipCanMove && tr2.clips.any (fun c =>
                  decide (insideClip.startTime < c.startTime) &&
                  decide (c.startTime < insideClip.endTime + insertDuration))
                  then
                .error (.capacity, tr2)
              else
                match src.clips.head? with
                | some srcClip =>
                  let spliced :=
                    replaceFirstClip tr2.clips inside
                      (fun c => c.pasteInto t0 srcClip)
                  .ok { tr2 with clips := spliced }
                | none => .ok tr2
            | none => multiInsert tr2
          else multiInsert tr2

/-- One slot of the two-slot read cache: the sample range it covers
(`mBuffers[i].start`, `.len`); the float data itself is abstracted away. -/
structure CacheBuffer where
  start : ℤ
  len : ℕ
deriving DecidableEq, Repr

/-- One-past-the-end sample of a slot (`Buffer::end()`). -/
def CacheBuffer.endPos (b : CacheBuffer) : ℤ := b.start + (b.len : ℤ)

/-- The cache state of WaveTrackCache: `mBuffers[0]`, `mBuffers[1]`,
`mNValidBuffers`. -/
structure TrackCache where
  buf0 : CacheBuffer
  buf1 : CacheBuffer
  nValidBuffers : ℕ
deriving DecidableEq, Repr

/-- The storage collaborator beneath the cache (spec §6): block lookup
(`GetBlockStart`, negative when no clip covers the sample), preferred block
size (`GetBestBlockSize`), and the possibly-failing fetch `WaveTrack::Get`
abstracted to its success bit. -/
structure TrackReader where
  blockStart : ℤ → ℤ
  bestBlockSize : ℤ → ℕ
  fetchOk : SampleFormat → ℤ → ℕ → Bool

/-- A non-null pointer returned by WaveTrackCache::Get: either directly into
one of the two cache slots (the all-contiguous no-copy path) or into the
scratch overlap buffer. -/
inductive CachePtr where
  | cached (bufIdx : ℕ) (offsetInBuf : ℕ)
  | overlap
deriving DecidableEq, Repr

/-- A record of one underlying `mPTrack->Get(...)` fetch: format, start,
length, and whether it succeeded. -/
structure FetchCall where
  format : SampleFormat
  start : ℤ
  len : ℕ
  ok : Bool
deriving DecidableEq, Repr

/-- The outcome of WaveTrackCache::Get: the returned pointer (`none` models
the null return), the cache range state afterwards, and the underlying
fetches performed, in order. -/
structure CacheGetOutcome where
  result : Option CachePtr
  state : TrackCache
  fetches : List FetchCall
deriving DecidableEq, Repr

/-- The discard phase of WaveTrackCache::Get (the three "Discard cached
results that we no longer need" branches): shuffles or invalidates the two
slots according to where the request falls, and returns the updated state
together with the `fillFirst` and `fillSecond` flags. -/
def cacheDiscard (rd : TrackReader) (st : TrackCache) (start endReq : ℤ) :
    TrackCache × Bool × Bool :=
  let last := if st.nValidBuffers = 1 then st.buf0 else st.buf1
  if 0 < st.nValidBuffers ∧
      (endReq ≤ st.buf0.start ∨ last.endPos ≤ start) then
    (st, true, true)
  else if st.nValidBuffers = 2 ∧ st.buf1.start ≤ start ∧
      st.buf1.endPos < endReq then
    ({ buf0 := st.buf1, buf1 := st.buf0, nValidBuffers := 1 },
     decide (st.nValidBuffers < 1), true)
  else if 0 < st.nValidBuffers ∧ start < st.buf0.start ∧
      0 ≤ rd.blockStart start then
    ({ buf0 := st.buf1, buf1 := st.buf0, nValidBuffers := 0 },
     true, false)
  else (st, decide (st.nValidBuffers < 1), decide (st.nValidBuffers < 2))

/-- The "refill first buffer" phase of WaveTrackCache::Get.  A failed block
fetch aborts the call (`error`, carrying the state at the failure point and
the fetch log); otherwise the possibly-updated fillSecond flag and the log
are passed on. -/
def cacheFillFirst (rd : TrackReader) (st1 : TrackCache) (start : ℤ)
    (fillFirst fillSecond : Bool) :
    Except (TrackCache × List FetchCall)
      (TrackCache × Bool × List FetchCall) :=
  if fillFirst then
    let start0 := rd.blockStart start
    if 0 ≤ start0 then
      let len0 := rd.bestBlockSize start0
      let ok0 := rd.fetchOk SampleFormat.floatSample start0 len0
      let log0 := [⟨SampleFormat.floatSample, start0, len0, ok0⟩]
      if ok0 = false then Except.error (st1, log0)
      else
        let stA := { st1 with buf0 := ⟨start0, len0⟩ }
        let fillSecond1 := fillSecond ||
          decide (stA.buf0.endPos ≠ stA.buf1.start)
        Except.ok
          ({ stA with nValidBuffers := if fillSecond1 then 1 else 2 },
           fillSecond1, log0)
    else Except.ok ({ st1 with nValidBuffers := 0 }, false, [])
  else Except.ok (st1, fillSecond, [])

/-- The "refill second buffer" phase of WaveTrackCache::Get.  Again a failed
block fetch aborts the whole call. -/
def cacheFillSecond (rd : TrackReader) (st2 : TrackCache) (endReq : ℤ)
    (fillSecond2 : Bool) (log1 : List FetchCall) :
    Except (TrackCache × List FetchCall) (TrackCache × List FetchCall) :=
  if fillSecond2 then
    let stB := { st2 with nValidBuffers := 1 }
    let end0 := stB.buf0.endPos
    if end0 < endReq then
      let start1 := rd.blockStart end0
      if start1 = end0 then
        let len1 := rd.bestBlockSize start1
        let ok1 := rd.fetchOk SampleFormat.floatSample start1 len1
        let log2 := log1 ++ [⟨SampleFormat.floatSample, start1, len1, ok1⟩]
        if ok1 = false then Except.error (stB, log2)
        else
          Except.ok
            ({ stB with buf1 := ⟨start1, len1⟩, nValidBuffers := 2 }, log2)
      else Except.ok (stB, log1)
    else Except.ok (stB, log1)
  else Except.ok (st2, log1)

/-- The (possibly negative) length of the leading uncached portion of the
request (`initLen` in the source). -/
def cacheInitLen (st3 : TrackCache) (start : ℤ) (len : ℕ) : ℤ :=
  if st3.nValidBuffers < 1 then (len : ℤ)
  else min (len : ℤ) (st3.buf0.start - start)

/-- The fetch of the leading uncached portion (`if (initLen > 0)` in the
source): on success, the remaining request and the advanced start. -/
def cacheServeInit (rd : TrackReader) (format : SampleFormat) (start : ℤ)
    (len : ℕ) (initLen : ℤ) (log2 : List FetchCall) :
    Except (List FetchCall) (ℕ × ℤ × Bool × List FetchCall) :=
  if 0 < initLen then
    let ok := rd.fetchOk format start initLen.toNat
    let log3 := log2 ++ [⟨format, start, initLen.toNat, ok⟩]
    if ok = false then Except.error log3
    else Except.ok (len - initLen.toNat, start + initLen, true, log3)
  else Except.ok (len, start, false, log2)

/-- One iteration of the source's loop over the valid buffers: either the
whole request is served directly from slot `ii` (no copy), or a leading
portion is copied and the state advances. -/
def cacheServeStep (st3 : TrackCache) (initLen : ℤ) (len : ℕ) (ii : ℕ)
    (s : ℕ × ℤ × Bool) : CachePtr ⊕ (ℕ × ℤ × Bool) :=
  let buf := if ii = 0 then st3.buf0 else st3.buf1
  if ii < st3.nValidBuffers ∧ 0 < s.1 then
    let starti : ℤ := s.2.1 - buf.start
    let leni : ℤ := min (s.1 : ℤ) ((buf.len : ℤ) - starti)
    if initLen ≤ 0 ∧ leni = (len : ℤ) then
      Sum.inl (.cached ii starti.toNat)
    else if 0 < leni then
      Sum.inr (s.1 - leni.toNat, s.2.1 + leni, true)
    else Sum.inr s
  else Sum.inr s

/-- The trailing direct fetch for whatever remains after the buffers
(`if (remaining > 0)` in the source). -/
def cacheServeFinish (rd : TrackReader) (st3 : TrackCache)
    (format : SampleFormat) (log3 : List FetchCall) (s2 : ℕ × ℤ × Bool) :
    CacheGetOutcome :=
  if 0 < s2.1 then
    let ok := rd.fetchOk format s2.2.1 s2.1
    let log4 := log3 ++ [⟨format, s2.2.1, s2.1, ok⟩]
    if ok = false then ⟨none, st3, log4⟩
    else ⟨some CachePtr.overlap, st3, log4⟩
  else ⟨some CachePtr.overlap, st3, log3⟩

/-- The serving phase of WaveTrackCache::Get: the leading uncached portion,
the loop over the (at most two) valid buffers — returning a direct pointer
into a slot when one slot alone satisfies the whole request — and the
trailing direct fetch.  Every fetch failure returns the null result. -/
def cacheServe (rd : TrackReader) (st3 : TrackCache) (format : SampleFormat)
    (start : ℤ) (len : ℕ) (log2 : List FetchCall) : CacheGetOutcome :=
  let initLen := cacheInitLen st3 start len
  match cacheServeInit rd format start len initLen log2 with
  | .error logF => ⟨none, st3, logF⟩
  | .ok (rem0, sa0, alloc0, log3) =>
    match cacheServeStep st3 initLen len 0 (rem0, sa0, alloc0) with
    | .inl ptr => ⟨some ptr, st3, log3⟩
    | .inr s1 =>
      match cacheServeStep st3 initLen len 1 s1 with
      | .inl ptr => ⟨some ptr, st3, log3⟩
      | .inr s2 => cacheServeFinish rd st3 format log3 s2

/-- WaveTrackCache::Get(format, start, len, mayThrow), translated statement
by statement from the source, phase by phase (discard, refill first, refill
second, serve).  Sample bytes are abstracted away, so a fetch is recorded as
its range together with its success bit, and the `mayThrow` flag (which
only selects between a throwing and a false-returning storage fetch) is
folded into the oracle's success bit.  Requests that are not float-format
or have zero length bypass the cache entirely. -/
def cacheGet (rd : TrackReader) (st : TrackCache) (format : SampleFormat)
    (start : ℤ) (len : ℕ) : CacheGetOutcome :=
  if format = SampleFormat.floatSample ∧ 0 < len then
    let endReq : ℤ := start + (len : ℤ)
    let disc := cacheDiscard rd st start endReq
    match cacheFillFirst rd disc.1 start disc.2.1 disc.2.2 with
    | .error (stE, logE) => ⟨none, stE, logE⟩
    | .ok (st2, fillSecond2, log1) =>
      match cacheFillSecond rd st2 endReq fillSecond2 log1 with
      | .error (stE, logE) => ⟨none, stE, logE⟩
      | .ok (st3, log2) => cacheServe rd st3 format start len log2
  else
    let ok := rd.fetchOk format start len
    ⟨if ok then some CachePtr.overlap else none, st,
     [⟨format, start, len, ok⟩]⟩

/-- Concrete track of the spec's SplitDelete scenario: 44100 Hz, one clip
spanning `[0.0, 10.0)`. -/
def trSplitScenario : WaveTrack := ⟨44100, [⟨0, 441000, 44100, false, []⟩]⟩

/-- Concrete track with one clip spanning `[0.0, 3.0)` at 44100 Hz. -/
def trInterior : WaveTrack := ⟨44100, [⟨0, 132300, 44100, false, []⟩]⟩

/-- Concrete paste destination: 10 Hz, one clip spanning `[0.0, 2.0)`. -/
def dstSplice : WaveTrack := ⟨10, [⟨0, 20, 10, false, []⟩]⟩

/-- Concrete paste source: 10 Hz, a single clip spanning `[0.0, 1.0)`
starting at time zero. -/
def srcSplice : WaveTrack := ⟨10, [⟨0, 10, 10, false, []⟩]⟩

/-- Small example clip used by concrete witnesses: `[1.0, 2.0)` at 44100 Hz. -/
def exClipA : WaveClip := ⟨1, 44100, 44100, false, []⟩

/-- Small example track holding `exClipA`. -/
def exTrackA : WaveTrack := ⟨44100, [exClipA]⟩

/-- Witness track at 10 Hz with one clip spanning `[0.0, 1.0)`. -/
def trTen : WaveTrack := ⟨10, [⟨0, 10, 10, false, []⟩]⟩

/-- Witness paste destination at 10 Hz: clips `[0.0, 2.0)` and `[2.5, 3.0)`. -/
def dstCapacity : WaveTrack := ⟨10, [⟨0, 20, 10, false, []⟩, ⟨5/2, 5, 10, false, []⟩]⟩

/-- Witness paste source at 10 Hz: one clip `[0.0, 1.0)`. -/
def srcCapacity : WaveTrack := ⟨10, [⟨0, 10, 10, false, []⟩]⟩

/-- Witness multi-clip paste source at 10 Hz: a real clip `[0.0, 1.0)` and a
placeholder clip `[1.0, 1.5)`. -/
def srcMulti : WaveTrack := ⟨10, [⟨0, 10, 10, false, []⟩, ⟨1, 5, 10, true, []⟩]⟩

/-- Witness storage reader: every sample lies in a block starting at 0 of
size 4, and every fetch succeeds. -/
def rdEx : TrackReader := ⟨fun _ => 0, fun _ => 4, fun _ _ _ => true⟩

/-- Witness cache state: both slots empty. -/
def stEx : TrackCache := ⟨⟨0, 0⟩, ⟨0, 0⟩, 0⟩

/-- The quantization `round(t*rate)` is monotone in `t`. -/
lemma timeToSamples_mono (r : ℕ) {a b : ℚ} (h : a ≤ b) :
    timeToSamples r a ≤ timeToSamples r b := by
  unfold timeToSamples
  have : a * (r : ℚ) + 1 / 2 ≤ b * (r : ℚ) + 1 / 2 := by
    have : a * (r : ℚ) ≤ b * (r : ℚ) :=
      mul_le_mul_of_nonneg_right h (by positivity)
    linarith
  exact Int.floor_le_floor this

/-- The running minimum of GetStartTime's fold never exceeds its seed. -/
lemma startTime_foldl_le_seed (l : List WaveClip) (b : ℚ) :
    l.foldl (fun best c' => if c'.startTime < best then c'.startTime else best)
      b ≤ b := by
  induction l generalizing b with
  | nil => exact le_rfl
  | cons x xs ih =>
    rw [List.foldl_cons]
    refine le_trans (ih _) ?_
    split
    · exact le_of_lt (by assumption)
    · exact le_rfl

/-- The running minimum of GetStartTime's fold never exceeds a member's
start time. -/
lemma startTime_foldl_le_mem (l : List WaveClip) (b : ℚ) (c : WaveClip)
    (hc : c ∈ l) :
    l.foldl (fun best c' => if c'.startTime < best then c'.startTime else best)
      b ≤ c.startTime := by
  induction l generalizing b with
  | nil => cases hc
  | cons x xs ih =>
    rw [List.foldl_cons]
    rcases List.mem_cons.mp hc with h | h
    · subst h
      refine le_trans (startTime_foldl_le_seed xs _) ?_
      split
      · exact le_rfl
      · exact le_of_not_lt (by assumption)
    · exact ih _ h

/-- The running maximum of GetEndTime's fold stays above its seed. -/
lemma endTime_foldl_ge_seed (l : List WaveClip) (b : ℚ) :
    b ≤ l.foldl (fun best c' => if best < c'.endTime then c'.endTime else best)
      b := by
  induction l generalizing b with
  | nil => exact le_rfl
  | cons x xs ih =>
    rw [List.foldl_cons]
    refine le_trans ?_ (ih _)
    split
    · exact le_of_lt (by assumption)
    · exact le_rfl

/-- The running maximum of GetEndTime's fold stays above a member's end
time. -/
lemma endTime_foldl_ge_mem (l : List WaveClip) (b : ℚ) (c : WaveClip)
    (hc : c ∈ l) :
    c.endTime ≤
      l.foldl (fun best c' => if best < c'.endTime then c'.endTime else best)
        b := by
  induction l generalizing b with
  | nil => cases hc
  | cons x xs ih =>
    rw [List.foldl_cons]
    rcases List.mem_cons.mp hc with h | h
    · subst h
      refine le_trans ?_ (endTime_foldl_ge_seed xs _)
      split
      · exact le_rfl
      · exact le_of_not_lt (by assumption)
    · exact ih _ h

/-- GetMinMax's clip fold leaves the accumulator untouched when no clip
intersects the interval. -/
lemma getMinMax_foldl_no_hit (clipMinMax : WaveClip → ℚ × ℚ) (t0 t1 : ℚ)
    (l : List WaveClip) (h : ∀ c ∈ l, ¬(c.startTime ≤ t1 ∧ t0 ≤ c.endTime))
    (acc : Bool × ℚ × ℚ) :
    l.foldl (getMinMaxStep clipMinMax t0 t1) acc = acc := by
  induction l generalizing acc with
  | nil => rfl
  | cons x xs ih =>
    rw [List.foldl_cons]
    have hx := h x (List.mem_cons_self x xs)
    rw [show getMinMaxStep clipMinMax t0 t1 acc x = acc from by
      unfold getMinMaxStep; rw [if_neg hx]]
    exact ih (fun c hc => h c (List.mem_cons_of_mem _ hc)) acc

/-- C6: for every track, `TimeToLongSamples(t)` equals rounding `t * rate`
to the nearest integer (Mathlib's `round`, which is `⌊x + 1/2⌋`, rounding
half upward), for negative `t` as well, and `LongSamplesToTime(n)` equals
`n / rate`. -/
theorem C6_sample_addressing (tr : WaveTrack) (t : ℚ) (n : ℤ) :
    tr.timeToLongSamples t = round (t * (tr.rate : ℚ)) ∧
    tr.longSamplesToTime n = (n : ℚ) / (tr.rate : ℚ) := by
  constructor
  · rw [round_eq]
    rfl
  · rfl

/-- C7: for every track, GetStartTime is at most every clip's start time and
GetEndTime is at least every clip's end time; the empty track yields 0 for
both. -/
theorem C7_track_time_bounds (tr : WaveTrack) :
    (∀ c ∈ tr.clips,
      tr.getStartTime ≤ c.startTime ∧ c.endTime ≤ tr.getEndTime) ∧
    (tr.clips = [] → tr.getStartTime = 0 ∧ tr.getEndTime = 0) := by
  constructor
  · intro c hc
    constructor
    · unfold WaveTrack.getStartTime
      cases htr : tr.clips with
      | nil => rw [htr] at hc; cases hc
      | cons c0 rest =>
        rw [htr] at hc
        rcases List.mem_cons.mp hc with h | h
        · subst h; exact startTime_foldl_le_seed rest _
        · exact startTime_foldl_le_mem rest _ c h
    · unfold WaveTrack.getEndTime
      cases htr : tr.clips with
      | nil => rw [htr] at hc; cases hc
      | cons c0 rest =>
        rw [htr] at hc
        rcases List.mem_cons.mp hc with h | h
        · subst h; exact endTime_foldl_ge_seed rest _
        · exact endTime_foldl_ge_mem rest _ c h
  · intro h
    constructor
    · unfold WaveTrack.getStartTime; rw [h]
    · unfold WaveTrack.getEndTime; rw [h]

/-- Witness for C7 at a concrete one-clip track and at the empty track. -/
theorem C7_track_time_bounds_witness :
    exClipA ∈ exTrackA.clips ∧
    (exTrackA.getStartTime ≤ exClipA.startTime ∧
     exClipA.endTime ≤ exTrackA.getEndTime) ∧
    ((⟨44100, []⟩ : WaveTrack).getStartTime = 0 ∧
     (⟨44100, []⟩ : WaveTrack).getEndTime = 0) :=
  ⟨show exClipA ∈ [exClipA] from List.mem_cons_self _ _,
   (C7_track_time_bounds exTrackA).1 exClipA
     (show exClipA ∈ [exClipA] from List.mem_cons_self _ _),
   (C7_track_time_bounds ⟨44100, []⟩).2 rfl⟩

/-- C1: for `t1 < t0`, HandleClear — and with it Clear, ClearAndAddCutLine
and SplitDelete — fails with the ordering error and the track's clip
collection is exactly as before (the error carries the untouched track),
under either clip-shifting configuration. -/
theorem C1_handleClear_rejects_reversed (tr : WaveTrack) (t0 t1 : ℚ)
    (h : t1 < t0) (addCutLines split editClipCanMove : Bool) :
    tr.handleClear t0 t1 addCutLines split editClipCanMove =
      .error (.ordering, tr) ∧
    tr.clear t0 t1 editClipCanMove = .error (.ordering, tr) ∧
    tr.clearAndAddCutLineTrack t0 t1 editClipCanMove =
      .error (.ordering, tr) ∧
    tr.splitDelete t0 t1 editClipCanMove = .error (.ordering, tr) := by
  unfold WaveTrack.clear WaveTrack.clearAndAddCutLineTrack
    WaveTrack.splitDelete WaveTrack.handleClear
  simp only [if_pos h]
  exact ⟨trivial, trivial, trivial, trivial⟩

/-- Witness for C1 at concrete reversed times `t0 = 1`, `t1 = 0`. -/
theorem C1_handleClear_rejects_reversed_witness :
    (0 : ℚ) < 1 ∧
    (exTrackA.handleClear 1 0 false false true = .error (.ordering, exTrackA) ∧
     exTrackA.clear 1 0 true = .error (.ordering, exTrackA) ∧
     exTrackA.clearAndAddCutLineTrack 1 0 true = .error (.ordering, exTrackA) ∧
     exTrackA.splitDelete 1 0 true = .error (.ordering, exTrackA)) :=
  ⟨by decide, C1_handleClear_rejects_reversed exTrackA 1 0 (by decide) false
    false true⟩

/-- C9: IsEmpty with reversed arguments (`t0 > t1`) returns true without any
error, whereas Cut, Copy, HandleClear and Silence all raise the ordering
error on the same arguments. -/
theorem C9_isEmpty_tolerates_reversed (tr : WaveTrack) (t0 t1 : ℚ)
    (h : t1 < t0) (editClipCanMove forClipboard addCutLines split : Bool) :
    tr.isEmpty t0 t1 = true ∧
    tr.cut t0 t1 editClipCanMove = .error (.ordering, tr) ∧
    tr.copy t0 t1 forClipboard = .error .ordering ∧
    tr.handleClear t0 t1 addCutLines split editClipCanMove =
      .error (.ordering, tr) ∧
    tr.silence t0 t1 = .error (.ordering, tr) := by
  unfold WaveTrack.isEmpty WaveTrack.cut WaveTrack.copy
    WaveTrack.handleClear WaveTrack.silence
  simp only [if_pos h, if_pos (show t0 > t1 from h)]
  exact ⟨trivial, trivial, trivial, trivial, trivial⟩

/-- Witness for C9 at concrete reversed times `t0 = 2`, `t1 = 1`. -/
theorem C9_isEmpty_tolerates_reversed_witness :
    (1 : ℚ) < 2 ∧
    (exTrackA.isEmpty 2 1 = true ∧
     exTrackA.cut 2 1 false = .error (.ordering, exTrackA) ∧
     exTrackA.copy 2 1 true = .error .ordering ∧
     exTrackA.handleClear 2 1 false false false = .error (.ordering, exTrackA) ∧
     exTrackA.silence 2 1 = .error (.ordering, exTrackA)) :=
  ⟨by decide, C9_isEmpty_tolerates_reversed exTrackA 2 1 (by decide) false
    true false false⟩

/-- C10: GetMinMax returns the sentinel pair (FLT_MAX, -FLT_MAX) when
`t0 = t1`, and (0, 0) when `t0 < t1` but no clip intersects `[t0,t1]`. -/
theorem C10_minmax_degenerate (tr : WaveTrack)
    (clipMinMax : WaveClip → ℚ × ℚ) (mayThrow : Bool) (t0 t1 : ℚ) :
    (t0 = t1 →
      tr.getMinMax clipMinMax t0 t1 mayThrow = .ok (fltMax, -fltMax)) ∧
    (t0 < t1 → (∀ c ∈ tr.clips, ¬(c.startTime ≤ t1 ∧ t0 ≤ c.endTime)) →
      tr.getMinMax clipMinMax t0 t1 mayThrow = .ok (0, 0)) := by
  constructor
  · intro he
    unfold WaveTrack.getMinMax
    rw [if_neg (by simp [he]), if_pos he]
  · intro hlt hno
    unfold WaveTrack.getMinMax
    rw [if_neg (not_lt.2 (le_of_lt hlt) : ¬t0 > t1), if_neg (ne_of_lt hlt)]
    simp only [getMinMax_foldl_no_hit clipMinMax t0 t1 tr.clips hno]
    rfl

/-- C2 counterexample: on the spec's scenario — 44100 Hz track, one clip
`[0.0,10.0)` — SplitDelete(3.0,4.0) does leave two clips, but no clip spans
`[3.0,9.0)`: the tail is left in place behind a gap (it spans `[4.0,10.0)`),
under either clip-shifting setting. -/
theorem C2_counterexample :
    ((trSplitScenario.splitDelete 3 4 false).toOption.map
      fun t => t.getNumClips) = some 2 ∧
    ((trSplitScenario.splitDelete 3 4 false).toOption.map fun t =>
      t.clips.any fun c =>
        decide (c.startTime = 3) && decide (c.endTime = 9)) = some false ∧
    ((trSplitScenario.splitDelete 3 4 true).toOption.map
      fun t => t.getNumClips) = some 2 ∧
    ((trSplitScenario.splitDelete 3 4 true).toOption.map fun t =>
      t.clips.any fun c =>
        decide (c.startTime = 3) && decide (c.endTime = 9)) = some false :=
  ⟨by with_unfolding_all decide, by with_unfolding_all decide,
   by with_unfolding_all decide, by with_unfolding_all decide⟩

/-- C2 amended: on the 44100 Hz track with one clip `[0.0,10.0)`,
SplitDelete(3.0,4.0) leaves exactly two clips, one spanning `[0.0,3.0)` and
one spanning `[4.0,10.0)` — the tail keeps its position, leaving a gap where
`[3.0,4.0)` was removed — and GetNumClips() returns 2 afterwards, under
either clip-shifting setting. -/
theorem C2_splitDelete_scenario_amended :
    ((trSplitScenario.splitDelete 3 4 false).toOption.map
      fun t => t.getNumClips) = some 2 ∧
    ((trSplitScenario.splitDelete 3 4 false).toOption.map fun t =>
      (t.clips.get? 0).map WaveClip.startTime) = some (some 0) ∧
    ((trSplitScenario.splitDelete 3 4 false).toOption.map fun t =>
      (t.clips.get? 0).map WaveClip.endTime) = some (some 3) ∧
    ((trSplitScenario.splitDelete 3 4 false).toOption.map fun t =>
      (t.clips.get? 1).map WaveClip.startTime) = some (some 4) ∧
    ((trSplitScenario.splitDelete 3 4 false).toOption.map fun t =>
      (t.clips.get? 1).map WaveClip.endTime) = some (some 10) ∧
    ((trSplitScenario.splitDelete 3 4 true).toOption.map fun t =>
      (t.clips.get? 0).map WaveClip.startTime) = some (some 0) ∧
    ((trSplitScenario.splitDelete 3 4 true).toOption.map fun t =>
      (t.clips.get? 0).map WaveClip.endTime) = some (some 3) ∧
    ((trSplitScenario.splitDelete 3 4 true).toOption.map fun t =>
      (t.clips.get? 1).map WaveClip.startTime) = some (some 4) ∧
    ((trSplitScenario.splitDelete 3 4 true).toOption.map fun t =>
      (t.clips.get? 1).map WaveClip.endTime) = some (some 10) ∧
    ((trSplitScenario.splitDelete 3 4 true).toOption.map
      fun t => t.getNumClips) = some 2 :=
  ⟨by with_unfolding_all decide, by with_unfolding_all decide,
   by with_unfolding_all decide, by with_unfolding_all decide,
   by with_unfolding_all decide, by with_unfolding_all decide,
   by with_unfolding_all decide, by with_unfolding_all decide,
   by with_unfolding_all decide, by with_unfolding_all decide⟩

/-- C3 counterexample: with one clip spanning `[0.0,3.0)`, Clear(1,2) joins
the clip's tail to its head (the clip becomes `[0.0,2.0)`), which still
overlaps `[1,2]`, so IsEmpty(1,2) is false afterwards — under both
clip-shifting settings. -/
theorem C3_counterexample :
    ((trInterior.clear 1 2 false).toOption.map fun t => t.isEmpty 1 2) =
      some false ∧
    ((trInterior.clear 1 2 true).toOption.map fun t => t.isEmpty 1 2) =
      some false :=
  ⟨by with_unfolding_all decide, by with_unfolding_all decide⟩

/-- A clip that quantized-overlaps the region, does not start at or before
`t0`, and ends at or before `t1`, is replaced by `WaveClip.clear` with a
remainder lying entirely at or before `t0`. -/
lemma clear_remainder_afterClip (c : WaveClip) (t0 t1 : ℚ)
    (hov0 : c.afterClip t0 = false) (hnb0 : c.beforeClip t0 = false)
    (hend : c.endSample ≤ timeToSamples c.rate t1) :
    (c.clear t0 t1).afterClip t0 = true := by
  have hS : c.startSample < timeToSamples c.rate t0 := by
    have h := of_decide_eq_false hnb0
    exact not_le.mp h
  have hq0E : timeToSamples c.rate t0 < c.endSample :=
    not_le.mp (of_decide_eq_false hov0)
  have hoff : ¬t0 < c.offset := by
    intro hlt
    have hmono := timeToSamples_mono c.rate (le_of_lt hlt)
    unfold WaveClip.startSample at hS
    omega
  unfold WaveClip.endSample WaveClip.startSample at hend hq0E hS
  unfold WaveClip.clear WaveClip.afterClip WaveClip.endSample
    WaveClip.startSample
  simp only [if_neg hoff, decide_eq_true_eq]
  rw [min_eq_left hend, max_eq_right (le_of_lt hS)]
  omega

/-- A clip passing the quantized overlap test is always marked for deletion
by HandleClear's classification. -/
lemma handleClearClassify_overlap_removed {t0 t1 : ℚ} (a s : Bool)
    (c : WaveClip) (hov : (!c.beforeClip t1 && !c.afterClip t0) = true) :
    (handleClearClassify t0 t1 a s c).1 = true := by
  unfold handleClearClassify
  by_cases hB : (c.beforeClip t0 && c.afterClip t1) = true
  · rw [if_pos hB]
  · rw [if_neg hB, if_pos hov]
    split
    · rfl
    · split
      · split
        · rfl
        · split
          · rfl
          · rfl
      · rfl

/-- With both HandleClear flags off, the replacements built from a clip are
exactly one `WaveClip.clear` duplicate, produced only for clips that pass
the overlap test without being wholly inside the region. -/
lemma handleClearClassify_mem_added {t0 t1 : ℚ} {c x : WaveClip}
    (hx : x ∈ (handleClearClassify t0 t1 false false c).2) :
    x = c.clear t0 t1 ∧ (!c.beforeClip t1 && !c.afterClip t0) = true ∧
    (c.beforeClip t0 && c.afterClip t1) = false := by
  unfold handleClearClassify at hx
  by_cases hw : (c.beforeClip t0 && c.afterClip t1) = true
  · rw [if_pos hw] at hx
    cases hx
  · rw [if_neg hw] at hx
    by_cases hov : (!c.beforeClip t1 && !c.afterClip t0) = true
    · rw [if_pos hov] at hx
      rcases List.mem_singleton.mp hx with rfl
      exact ⟨rfl, hov, by simpa using hw⟩
    · rw [if_neg hov] at hx
      cases hx

/-- C3 amended: with clip-shifting disabled, when every clip that overlaps
`[t0,t1]` (by the quantized test) ends at or before `t1`, Clear(t0,t1)
succeeds and IsEmpty(t0,t1) returns true afterwards.  (The counterexample
shows the original claim fails as soon as a clip extends past `t1`: the tail
is joined leftward into the cleared region.) -/
theorem C3_clear_isEmpty_amended (tr : WaveTrack) (t0 t1 : ℚ)
    (h01 : t0 ≤ t1)
    (hend : ∀ c ∈ tr.clips, c.beforeClip t1 = false →
      c.afterClip t0 = false → c.endSample ≤ timeToSamples c.rate t1) :
    ∀ tr', tr.clear t0 t1 false = .ok tr' → tr'.isEmpty t0 t1 = true := by
  intro tr' htr'
  unfold WaveTrack.clear WaveTrack.handleClear at htr'
  rw [if_neg (not_lt.2 h01)] at htr'
  injection htr' with htr'
  subst htr'
  unfold WaveTrack.isEmpty
  rw [if_neg (not_lt.2 h01 : ¬t0 > t1)]
  rw [Bool.not_eq_true', List.any_eq_false]
  intro x hx
  simp only [Bool.false_and, Bool.and_false, Bool.not_false, Bool.and_true,
    if_false] at hx
  rcases List.mem_append.mp hx with hk | ha
  · rcases List.mem_filterMap.mp hk with ⟨c, hc, hfc⟩
    by_cases h1 : (handleClearClassify t0 t1 false false c).1 = true
    · rw [if_pos h1] at hfc
      cases hfc
    · rw [if_neg h1] at hfc
      have hxc : x = c := by
        injection hfc with h2
        exact h2.symm
      subst hxc
      intro hcon
      exact h1 (handleClearClassify_overlap_removed false false x hcon)
  · rcases List.mem_flatMap.mp ha with ⟨c, hc, hxc⟩
    rcases handleClearClassify_mem_added hxc with ⟨rfl, hov, hw⟩
    have hov2 : c.beforeClip t1 = false ∧ c.afterClip t0 = false := by
      simpa using hov
    obtain ⟨hov1, hov0⟩ := hov2
    have hendc := hend c hc hov1 hov0
    have hnb0 : c.beforeClip t0 = false := by
      have hat1 : c.afterClip t1 = true := by
        unfold WaveClip.afterClip
        exact decide_eq_true hendc
      cases hb : c.beforeClip t0 with
      | false => rfl
      | true => rw [hb, hat1] at hw; cases hw
    have hafter := clear_remainder_afterClip c t0 t1 hov0 hnb0 hendc
    rw [hafter]
    simp

/-- Witness for C3's amended claim: a 10 Hz track with one clip `[0.0,1.0)`,
cleared over `[0.5, 2]`; the clip's remainder `[0.0,0.5)` ends at the
region's start and IsEmpty(0.5, 2) holds afterwards. -/
theorem C3_clear_isEmpty_amended_witness :
    (1 / 2 : ℚ) ≤ 2 ∧
    (∀ c ∈ trTen.clips, c.beforeClip 2 = false → c.afterClip (1 / 2) = false →
      c.endSample ≤ timeToSamples c.rate 2) ∧
    trTen.clear (1 / 2) 2 false = .ok ⟨10, [⟨0, 5, 10, false, []⟩]⟩ ∧
    (⟨10, [⟨0, 5, 10, false, []⟩]⟩ : WaveTrack).isEmpty (1 / 2) 2 = true :=
  ⟨by with_unfolding_all decide, by with_unfolding_all decide,
   by with_unfolding_all decide,
   C3_clear_isEmpty_amended trTen (1 / 2) 2 (by with_unfolding_all decide)
     (by with_unfolding_all decide) ⟨10, [⟨0, 5, 10, false, []⟩]⟩
     (by with_unfolding_all decide)⟩

/-- C4 counterexample: with clip-shifting disabled, destination one clip
`[0.0,2.0)`, source a single clip `[0.0,1.0)`, and `t0 = 1` strictly inside
the destination clip, the region `[1, 2 - 1/rate]` is not silent, yet
Paste(1, src) succeeds — it splices the source into the existing clip in
place (still one clip, grown by one second) instead of failing with a
capacity error. -/
theorem C4_counterexample :
    dstSplice.isEmpty 1 (1 + 1 - 1 / 10) = false ∧
    ((dstSplice.paste 2 1 srcSplice false).toOption.map
      fun t => t.getNumClips) = some 1 ∧
    ((dstSplice.paste 2 1 srcSplice false).toOption.map fun t =>
      (t.clips.get? 0).map WaveClip.numSamples) = some (some 30) :=
  ⟨by with_unfolding_all decide, by with_unfolding_all decide,
   by with_unfolding_all decide⟩

/-- C4 amended: with clip-shifting disabled, a non-empty, not degenerately
short source, and no destination clip offering an in-place splice at `t0`
(no clip strictly contains `t0`'s sample and none starts exactly at it),
Paste(t0, src) over a non-silent target region `[t0, t0+dur-1/rate]` fails
with the capacity error, carrying the destination unchanged — no clip is
spliced or inserted.  (The counterexample shows the original claim fails
when `t0` lies inside an existing clip: the source is spliced in place
despite the overlap.) -/
theorem C4_paste_capacity_amended (tr src : WaveTrack) (t0 : ℚ) (fuel : ℕ)
    (h1 : src.getNumClips ≠ 0)
    (h2 : ¬(src.getEndTime ≠ 0 ∧ src.getEndTime < 1 / (tr.rate : ℚ)))
    (h3 : ∀ c ∈ tr.clips, c.withinClip t0 = false ∧
      tr.timeToLongSamples t0 ≠ c.startSample)
    (h4 : tr.isEmpty t0 (t0 + src.getEndTime - 1 / (tr.rate : ℚ)) = false) :
    tr.paste (fuel + 1) t0 src false = .error (.capacity, tr) := by
  have h2' : ¬(¬src.getEndTime = 0 ∧ src.getEndTime < ((tr.rate : ℚ))⁻¹) := by
    simpa using h2
  have h4' : tr.isEmpty t0 (t0 + src.getEndTime - ((tr.rate : ℚ))⁻¹) =
      false := by
    simpa using h4
  have hfind : tr.clips.find? (fun c =>
      c.withinClip t0 || decide (tr.timeToLongSamples t0 = c.startSample)) =
      none := by
    rw [List.find?_eq_none]
    intro c hc
    rcases h3 c hc with ⟨hw, hs⟩
    simp [hw, hs]
  simp [WaveTrack.paste, h1, h2', h4', hfind]

/-- Witness for C4's amended claim: a 10 Hz destination with clips
`[0.0,2.0)` and `[2.5,3.0)`, pasting a one-second source at `t0 = 2` (at the
first clip's end, inside no clip) fails with the capacity error. -/
theorem C4_paste_capacity_amended_witness :
    srcCapacity.getNumClips ≠ 0 ∧
    ¬(srcCapacity.getEndTime ≠ 0 ∧
      srcCapacity.getEndTime < 1 / (dstCapacity.rate : ℚ)) ∧
    (∀ c ∈ dstCapacity.clips, c.withinClip 2 = false ∧
      dstCapacity.timeToLongSamples 2 ≠ c.startSample) ∧
    dstCapacity.isEmpty 2
      (2 + srcCapacity.getEndTime - 1 / (dstCapacity.rate : ℚ)) = false ∧
    dstCapacity.paste 3 2 srcCapacity false = .error (.capacity, dstCapacity) :=
  ⟨by with_unfolding_all decide, by with_unfolding_all decide,
   by with_unfolding_all decide, by with_unfolding_all decide,
   C4_paste_capacity_amended dstCapacity srcCapacity 2 2
     (by with_unfolding_all decide) (by with_unfolding_all decide)
     (by with_unfolding_all decide) (by with_unfolding_all decide)⟩

/-- C5: multi-clip insertion.  When Paste reaches the multi-clip path (no
in-place splice target, and with clip-shifting disabled a silent target
region — or with clip-shifting enabled a destination already silent from
`t0` on and a multi-clip source), it appends to the destination exactly one
new independent clip per non-placeholder source clip, resampled to the
destination's rate and with its offset increased by `t0`; placeholder source
clips contribute nothing. -/
theorem C5_paste_multiclip (tr src : WaveTrack) (t0 : ℚ) (fuel : ℕ)
    (h1 : src.getNumClips ≠ 0)
    (h2 : ¬(src.getEndTime ≠ 0 ∧ src.getEndTime < 1 / (tr.rate : ℚ))) :
    ((∀ c ∈ tr.clips, c.withinClip t0 = false ∧
        tr.timeToLongSamples t0 ≠ c.startSample) →
      tr.isEmpty t0 (t0 + src.getEndTime - 1 / (tr.rate : ℚ)) = true →
      tr.paste (fuel + 1) t0 src false = .ok ⟨tr.rate, tr.clips ++
        src.clips.filterMap (fun c => if c.isPlaceholder then none
          else some ((c.resample tr.rate).offsetBy t0))⟩) ∧
    (¬(src.getNumClips = 1 ∧ src.getStartTime = 0) →
      tr.isEmpty t0 tr.getEndTime = true →
      tr.paste (fuel + 1) t0 src true = .ok ⟨tr.rate, tr.clips ++
        src.clips.filterMap (fun c => if c.isPlaceholder then none
          else some ((c.resample tr.rate).offsetBy t0))⟩) := by
  have h2' : ¬(¬src.getEndTime = 0 ∧ src.getEndTime < ((tr.rate : ℚ))⁻¹) := by
    simpa using h2
  constructor
  · intro h3 h4
    have h4' : tr.isEmpty t0 (t0 + src.getEndTime - ((tr.rate : ℚ))⁻¹) =
        true := by
      simpa using h4
    have hfind : tr.clips.find? (fun c =>
        c.withinClip t0 || decide (tr.timeToLongSamples t0 = c.startSample)) =
        none := by
      rw [List.find?_eq_none]
      intro c hc
      rcases h3 c hc with ⟨hw, hs⟩
      simp [hw, hs]
    simp [WaveTrack.paste, h1, h2', h4', hfind]
  · intro hns hroom
    have hns' : src.getNumClips = 1 → ¬src.getStartTime = 0 :=
      fun hA hB => hns ⟨hA, hB⟩
    simp [WaveTrack.paste, h1, h2', hns, hns', hroom]

/-- Witness for C5: pasting a source holding one real clip `[0.0,1.0)` and
one placeholder into a 10 Hz destination at `t0 = 2`, in both configuration
settings. -/
theorem C5_paste_multiclip_witness :
    srcMulti.getNumClips ≠ 0 ∧
    ¬(srcMulti.getEndTime ≠ 0 ∧ srcMulti.getEndTime < 1 / (trTen.rate : ℚ)) ∧
    (∀ c ∈ trTen.clips, c.withinClip 2 = false ∧
      trTen.timeToLongSamples 2 ≠ c.startSample) ∧
    trTen.isEmpty 2 (2 + srcMulti.getEndTime - 1 / (trTen.rate : ℚ)) = true ∧
    ¬(srcMulti.getNumClips = 1 ∧ srcMulti.getStartTime = 0) ∧
    trTen.isEmpty 2 trTen.getEndTime = true ∧
    trTen.paste 3 2 srcMulti false = .ok ⟨trTen.rate, trTen.clips ++
      srcMulti.clips.filterMap (fun c => if c.isPlaceholder then none
        else some ((c.resample trTen.rate).offsetBy 2))⟩ ∧
    trTen.paste 3 2 srcMulti true = .ok ⟨trTen.rate, trTen.clips ++
      srcMulti.clips.filterMap (fun c => if c.isPlaceholder then none
        else some ((c.resample trTen.rate).offsetBy 2))⟩ :=
  ⟨by with_unfolding_all decide, by with_unfolding_all decide,
   by with_unfolding_all decide, by with_unfolding_all decide,
   by with_unfolding_all decide, by with_unfolding_all decide,
   (C5_paste_multiclip trTen srcMulti 2 2 (by with_unfolding_all decide)
     (by with_unfolding_all decide)).1 (by with_unfolding_all decide)
     (by with_unfolding_all decide),
   (C5_paste_multiclip trTen srcMulti 2 2 (by with_unfolding_all decide)
     (by with_unfolding_all decide)).2 (by with_unfolding_all decide)
     (by with_unfolding_all decide)⟩

/-- Every fetch recorded by a successful first-buffer refill succeeded. -/
lemma cacheFillFirst_ok_log {rd : TrackReader} {st1 : TrackCache} {start : ℤ}
    {fillFirst fillSecond : Bool} {st2 : TrackCache} {fs2 : Bool}
    {log : List FetchCall}
    (h : cacheFillFirst rd st1 start fillFirst fillSecond =
      .ok (st2, fs2, log)) :
    ∀ f ∈ log, f.ok = true := by
  unfold cacheFillFirst at h
  split at h
  · dsimp only [] at h
    split at h
    · split at h
      · cases h
      · rename_i hok
        simp only [Except.ok.injEq, Prod.mk.injEq] at h
        obtain ⟨-, -, h3⟩ := h
        subst h3
        intro f hf
        rcases List.mem_singleton.mp hf with rfl
        simpa using hok
    · simp only [Except.ok.injEq, Prod.mk.injEq] at h
      obtain ⟨-, -, h3⟩ := h
      subst h3
      intro f hf
      cases hf
  · simp only [Except.ok.injEq, Prod.mk.injEq] at h
    obtain ⟨-, -, h3⟩ := h
    subst h3
    intro f hf
    cases hf

/-- A successful second-buffer refill preserves the all-fetches-succeeded
invariant of the log. -/
lemma cacheFillSecond_ok_log {rd : TrackReader} {st2 : TrackCache}
    {endReq : ℤ} {fs2 : Bool} {log1 : List FetchCall} {st3 : TrackCache}
    {log2 : List FetchCall}
    (h : cacheFillSecond rd st2 endReq fs2 log1 = .ok (st3, log2))
    (hlog : ∀ f ∈ log1, f.ok = true) :
    ∀ f ∈ log2, f.ok = true := by
  unfold cacheFillSecond at h
  split at h
  · dsimp only [] at h
    split at h
    · split at h
      · split at h
        · cases h
        · rename_i hok
          simp only [Except.ok.injEq, Prod.mk.injEq] at h
          obtain ⟨-, h3⟩ := h
          subst h3
          intro f hf
          rcases List.mem_append.mp hf with hf | hf
          · exact hlog f hf
          · rcases List.mem_singleton.mp hf with rfl
            simpa using hok
      · simp only [Except.ok.injEq, Prod.mk.injEq] at h
        obtain ⟨-, h3⟩ := h
        subst h3
        exact hlog
    · simp only [Except.ok.injEq, Prod.mk.injEq] at h
      obtain ⟨-, h3⟩ := h
      subst h3
      exact hlog
  · simp only [Except.ok.injEq, Prod.mk.injEq] at h
    obtain ⟨-, h3⟩ := h
    subst h3
    exact hlog

/-- A successful leading-portion fetch preserves the all-fetches-succeeded
invariant of the log. -/
lemma cacheServeInit_ok_log {rd : TrackReader} {format : SampleFormat}
    {start : ℤ} {len : ℕ} {initLen : ℤ} {log2 : List FetchCall}
    {rem : ℕ} {sa : ℤ} {alloc : Bool} {log3 : List FetchCall}
    (h : cacheServeInit rd format start len initLen log2 =
      .ok (rem, sa, alloc, log3))
    (hlog : ∀ f ∈ log2, f.ok = true) :
    ∀ f ∈ log3, f.ok = true := by
  unfold cacheServeInit at h
  split at h
  · dsimp only [] at h
    split at h
    · cases h
    · rename_i hok
      simp only [Except.ok.injEq, Prod.mk.injEq] at h
      obtain ⟨-, -, -, h4⟩ := h
      subst h4
      intro f hf
      rcases List.mem_append.mp hf with hf | hf
      · exact hlog f hf
      · rcases List.mem_singleton.mp hf with rfl
        simpa using hok
  · simp only [Except.ok.injEq, Prod.mk.injEq] at h
    obtain ⟨-, -, -, h4⟩ := h
    subst h4
    exact hlog

/-- When the trailing direct fetch yields a non-null result, every fetch in
its outcome succeeded, given an all-successful incoming log. -/
lemma cacheServeFinish_some_log {rd : TrackReader} {st3 : TrackCache}
    {format : SampleFormat} {log3 : List FetchCall} {s2 : ℕ × ℤ × Bool}
    {out : CacheGetOutcome}
    (heq : cacheServeFinish rd st3 format log3 s2 = out)
    (hlog : ∀ f ∈ log3, f.ok = true)
    (hsome : out.result.isSome = true) :
    ∀ f ∈ out.fetches, f.ok = true := by
  unfold cacheServeFinish at heq
  split at heq
  · dsimp only [] at heq
    split at heq
    · subst heq
      simp at hsome
    · rename_i hok
      subst heq
      intro f hf
      rcases List.mem_append.mp hf with hf | hf
      · exact hlog f hf
      · rcases List.mem_singleton.mp hf with rfl
        simpa using hok
  · subst heq
    exact fun f hf => hlog f hf

/-- When the serving phase returns a non-null pointer, every fetch in its
outcome succeeded, provided the incoming log was all-successful. -/
lemma cacheServe_some_log {rd : TrackReader} {st3 : TrackCache}
    {format : SampleFormat} {start : ℤ} {len : ℕ} {log2 : List FetchCall}
    {out : CacheGetOutcome}
    (heq : cacheServe rd st3 format start len log2 = out)
    (hlog : ∀ f ∈ log2, f.ok = true)
    (hsome : out.result.isSome = true) :
    ∀ f ∈ out.fetches, f.ok = true := by
  unfold cacheServe at heq
  dsimp only [] at heq
  split at heq
  · subst heq
    simp at hsome
  · rename_i rem0 sa0 alloc0 log3 hinit
    have hlog3 : ∀ f ∈ log3, f.ok = true :=
      cacheServeInit_ok_log hinit hlog
    split at heq
    · subst heq
      exact fun f hf => hlog3 f hf
    · split at heq
      · subst heq
        exact fun f hf => hlog3 f hf
      · exact cacheServeFinish_some_log heq hlog3 hsome

/-- Failure propagation for the whole WaveTrackCache::Get: a non-null
result means every underlying fetch succeeded. -/
lemma cacheGet_some_log {rd : TrackReader} {st : TrackCache}
    {format : SampleFormat} {start : ℤ} {len : ℕ} {out : CacheGetOutcome}
    (heq : cacheGet rd st format start len = out)
    (hsome : out.result.isSome = true) :
    ∀ f ∈ out.fetches, f.ok = true := by
  unfold cacheGet at heq
  split at heq
  · dsimp only [] at heq
    split at heq
    · subst heq
      simp at hsome
    · rename_i st2 fs2 log1 hff
      split at heq
      · subst heq
        simp at hsome
      · rename_i st3 log2 hfs
        exact cacheServe_some_log heq
          (cacheFillSecond_ok_log hfs (cacheFillFirst_ok_log hff)) hsome
  · dsimp only [] at heq
    subst heq
    rcases hok : rd.fetchOk format start len with _ | _
    · simp [hok] at hsome
    · intro f hf
      rcases List.mem_singleton.mp hf with rfl
      rfl

/-- C8: the sample read cache caches only float-format requests of positive
length — any other request is served by one direct uncached fetch with the
cache ranges untouched — and whenever an underlying fetch reports failure,
the whole Get call returns the null result rather than partial data. -/
theorem C8_cache_float_only_and_failure (rd : TrackReader) (st : TrackCache)
    (format : SampleFormat) (start : ℤ) (len : ℕ) :
    ((format ≠ SampleFormat.floatSample ∨ len = 0) →
      cacheGet rd st format start len =
        ⟨if rd.fetchOk format start len then some CachePtr.overlap else none,
         st, [⟨format, start, len, rd.fetchOk format start len⟩]⟩) ∧
    ((cacheGet rd st format start len).result.isSome = true →
      ∀ f ∈ (cacheGet rd st format start len).fetches, f.ok = true) := by
  constructor
  · intro h
    have hcond : ¬(format = SampleFormat.floatSample ∧ 0 < len) := by
      intro hc
      rcases hc with ⟨hc1, hc2⟩
      rcases h with h | h
      · exact h hc1
      · omega
    unfold cacheGet
    rw [if_neg hcond]
  · intro hsome
    exact cacheGet_some_log rfl hsome

/-- Witness for C8: an int16 request bypasses the cache entirely, and a
successful float request has an all-successful fetch log. -/
theorem C8_cache_float_only_and_failure_witness :
    (SampleFormat.int16Sample ≠ SampleFormat.floatSample ∨ (5 : ℕ) = 0) ∧
    cacheGet rdEx stEx SampleFormat.int16Sample 0 5 =
      ⟨if rdEx.fetchOk SampleFormat.int16Sample 0 5 then
          some CachePtr.overlap else none,
        stEx,
        [⟨SampleFormat.int16Sample, 0, 5,
          rdEx.fetchOk SampleFormat.int16Sample 0 5⟩]⟩ ∧
    (cacheGet rdEx stEx SampleFormat.floatSample 0 5).result.isSome = true ∧
    (∀ f ∈ (cacheGet rdEx stEx SampleFormat.floatSample 0 5).fetches,
      f.ok = true) :=
  ⟨Or.inl (by decide),
   (C8_cache_float_only_and_failure rdEx stEx SampleFormat.int16Sample 0 5).1
     (Or.inl (by decide)),
   by with_unfolding_all decide,
   (C8_cache_float_only_and_failure rdEx stEx SampleFormat.floatSample 0 5).2
     (by with_unfolding_all decide)⟩

/-- Witness for C10: the sentinel at `t0 = t1 = 5` and the (0,0) default at
`[3,4]`, which no clip of the example track intersects. -/
theorem C10_minmax_degenerate_witness :
    ((5 : ℚ) = 5 ∧
     exTrackA.getMinMax (fun _ => (0, 0)) 5 5 true = .ok (fltMax, -fltMax)) ∧
    ((3 : ℚ) < 4 ∧
     exTrackA.getMinMax (fun _ => (0, 0)) 3 4 true = .ok (0, 0)) :=
  ⟨⟨rfl, (C10_minmax_degenerate exTrackA (fun _ => (0, 0)) true 5 5).1 rfl⟩,
   ⟨by decide, (C10_minmax_degenerate exTrackA (fun _ => (0, 0)) true 3 4).2
     (by decide) (by with_unfolding_all decide)⟩⟩

end Audacity
